import Mathlib

/-!
Verification of the site configuration object of the
FastEndpoints-Documentation repository (`src/docs/src/config.ts`).

The source constructs a single configuration object

  export const config = Object.freeze<Config>({ ... });

whose TypeScript type `Config` declares `seo.title : ''`,
`seo.description : ''` (literal empty-string types), `github : string`,
`discord : string` and a nested `algolia` record of three strings.

We embed the relevant fragment of JavaScript runtime semantics:
objects are finite association lists of properties together with a
frozen flag, property assignment on a frozen object raises a
`TypeError` (the file is an ES module, hence strict mode), and
`Object.freeze` freezes only the object it is applied to (it is
shallow: nested objects stay mutable).
-/

namespace SiteConfig

/-- A JavaScript runtime value, restricted to the fragment the
configuration module uses: strings, `undefined`, `null`, and objects.
An object carries its frozen flag and its property list. -/
inductive JSValue : Type where
  | str : String → JSValue
  | undef : JSValue
  | nil : JSValue
  | obj : Bool → List (String × JSValue) → JSValue
deriving Repr

/-- Read a direct property of a value; `none` on non-objects and
missing properties (JavaScript would yield `undefined`, merged here
with absence). -/
def getProp : JSValue → String → Option JSValue
  | .obj _ props, k => props.lookup k
  | _, _ => none

/-- Read a value at a property path, e.g.
`getPath config [\x22algolia\x22, \x22apiKey\x22]`. -/
def getPath : JSValue → List String → Option JSValue
  | v, [] => some v
  | v, k :: rest =>
    match getProp v k with
    | some v' => getPath v' rest
    | none => none

/-- Overwrite the property `k` in a property list if it is present;
otherwise return the list unchanged. -/
def setProp (props : List (String × JSValue)) (k : String) (v : JSValue) :
    List (String × JSValue) :=
  props.map (fun p => if p.1 == k then (k, v) else p)

/-- Set property `k` to `v`, adding it at the end if absent — the
behaviour of assignment on a non-frozen JavaScript object. -/
def setPropOrAdd (props : List (String × JSValue)) (k : String) (v : JSValue) :
    List (String × JSValue) :=
  if props.any (fun p => p.1 == k) then setProp props k v
  else props ++ [(k, v)]

/-- The strict-mode error raised by assigning to a property of a
frozen object. -/
def frozenWriteError : String :=
  "TypeError: Cannot assign to read only property"

/-- Strict-mode property assignment along a path.  Writing the last
segment consults the frozen flag of the object that directly holds the
property — and only that object, which is what makes `Object.freeze`
shallow.  Traversing an intermediate segment is a read and is always
allowed; reaching a non-object raises a `TypeError`. -/
def writePath : JSValue → List String → JSValue → Except String JSValue
  | _, [], _ => .error "SyntaxError: invalid assignment target"
  | .obj frozen props, [k], v =>
    match frozen with
    | true => .error frozenWriteError
    | false => .ok (.obj false (setPropOrAdd props k v))
  | .obj frozen props, k :: k' :: rest, v =>
    match props.lookup k with
    | some inner =>
      match writePath inner (k' :: rest) v with
      | .ok inner' => .ok (.obj frozen (setProp props k inner'))
      | .error e => .error e
    | none => .error "TypeError: Cannot set properties of undefined"
  | _, _ :: _, _ => .error "TypeError: Cannot create property on primitive"

/-- The `seo` object literal of `config.ts` (lines 16–19): both fields
initialised to the empty string.  `Object.freeze` is applied only to
the outer object, so this nested object is not frozen. -/
def seoObj : JSValue :=
  .obj false [("title", .str ""), ("description", .str "")]

/-- The `algolia` object literal of `config.ts` (lines 22–26): all
three credentials are the empty string.  Not frozen, for the same
reason as `seoObj`. -/
def algoliaObj : JSValue :=
  .obj false
    [("apiKey", .str ""), ("appId", .str ""), ("indexName", .str "")]

/-- The exported `config` constant of `config.ts` (lines 15–27): the
object literal with `Object.freeze` applied, hence the outer frozen
flag is `true`. -/
def config : JSValue :=
  .obj true
    [("seo", seoObj),
     ("github", .str "https://github.com/dj-nitehawk/FastEndpoints"),
     ("discord", .str "https://discord.com/invite/yQZ4uvfF2E"),
     ("algolia", algoliaObj)]

/-- The fragment of JavaScript expressions used by `config.ts`:
string literals, object literals, and `Object.freeze` applied to an
expression. -/
inductive Expr : Type where
  | strLit : String → Expr
  | objLit : List (String × Expr) → Expr
  | freezeE : Expr → Expr
deriving Repr

mutual

/-- Evaluate a construction expression.  Object literals evaluate
their fields left to right and produce a non-frozen object;
`Object.freeze` sets the frozen flag of the object it receives (and
returns primitives unchanged, per ES2015). -/
def evalExpr : Expr → Except String JSValue
  | .strLit s => .ok (.str s)
  | .freezeE e =>
    match evalExpr e with
    | .ok (.obj _ props) => .ok (.obj true props)
    | .ok v => .ok v
    | .error err => .error err
  | .objLit fields =>
    match evalFields fields with
    | .ok props => .ok (.obj false props)
    | .error err => .error err

/-- Evaluate the fields of an object literal in order. -/
def evalFields : List (String × Expr) → Except String (List (String × JSValue))
  | [] => .ok []
  | (k, e) :: rest =>
    match evalExpr e with
    | .ok v =>
      match evalFields rest with
      | .ok ps => .ok ((k, v) :: ps)
      | .error err => .error err
    | .error err => .error err

end

mutual

/-- Big-step evaluation relation for construction expressions, used to
state that construction is deterministic (two runs of the same
construction agree). -/
inductive EvalRel : Expr → JSValue → Prop where
  | strLit (s : String) : EvalRel (.strLit s) (.str s)
  | objLit {fs : List (String × Expr)} {ps : List (String × JSValue)} :
      EvalFieldsRel fs ps → EvalRel (.objLit fs) (.obj false ps)
  | freezeObj {e : Expr} {b : Bool} {ps : List (String × JSValue)} :
      EvalRel e (.obj b ps) → EvalRel (.freezeE e) (.obj true ps)
  | freezePrim {e : Expr} {v : JSValue} :
      EvalRel e v → (∀ b ps, v ≠ .obj b ps) → EvalRel (.freezeE e) v

/-- Big-step evaluation of an object literal's field list. -/
inductive EvalFieldsRel :
    List (String × Expr) → List (String × JSValue) → Prop where
  | nil : EvalFieldsRel [] []
  | cons {k : String} {e : Expr} {v : JSValue} {rest : List (String × Expr)}
      {ps : List (String × JSValue)} :
      EvalRel e v → EvalFieldsRel rest ps →
      EvalFieldsRel ((k, e) :: rest) ((k, v) :: ps)

end

/-- The construction expression of `config.ts` lines 15–27, verbatim:
`Object.freeze` applied to the object literal with its nested `seo`
and `algolia` literals. -/
def configExpr : Expr :=
  .freezeE (.objLit
    [("seo", .objLit [("title", .strLit ""), ("description", .strLit "")]),
     ("github", .strLit "https://github.com/dj-nitehawk/FastEndpoints"),
     ("discord", .strLit "https://discord.com/invite/yQZ4uvfF2E"),
     ("algolia", .objLit
       [("apiKey", .strLit ""), ("appId", .strLit ""),
        ("indexName", .strLit "")])])

/-- The property paths declared by the TypeScript type `Config`
(`config.ts` lines 1–13). -/
def declaredPaths : List (List String) :=
  [["seo", "title"], ["seo", "description"], ["github"], ["discord"],
   ["algolia", "apiKey"], ["algolia", "appId"], ["algolia", "indexName"]]

/-- `true` iff the value at path `p` is the string `s` — the runtime
counterpart of a TypeScript literal string type at that member. -/
def hasLitAt (v : JSValue) (p : List String) (s : String) : Bool :=
  match getPath v p with
  | some (.str t) => t == s
  | _ => false

/-- `true` iff the value at path `p` is some string — the runtime
counterpart of a TypeScript `string`-typed member. -/
def hasStringAt (v : JSValue) (p : List String) : Bool :=
  match getPath v p with
  | some (.str _) => true
  | _ => false

/-- The structural content of the TypeScript type `Config`
(`config.ts` lines 1–13): `seo.title` and `seo.description` have the
literal type `''` (so they must be the empty string), and the
remaining five members have type `string`. -/
def isConfigType (v : JSValue) : Bool :=
  hasLitAt v ["seo", "title"] "" &&
  hasLitAt v ["seo", "description"] "" &&
  hasStringAt v ["github"] &&
  hasStringAt v ["discord"] &&
  hasStringAt v ["algolia", "apiKey"] &&
  hasStringAt v ["algolia", "appId"] &&
  hasStringAt v ["algolia", "indexName"]

/-- Modelled from the spec: the consumer's "is search enabled" check.
No consumer code ships in the repository (the static-site generator is
out of scope), so the check is taken from the spec's words: search is
enabled iff all three algolia credentials are non-empty. -/
def searchEnabled (apiKey appId indexName : String) : Bool :=
  !(apiKey == "") && !(appId == "") && !(indexName == "")

/-- The "is search enabled" check read off a configuration value:
extract the three algolia credential strings and apply
`searchEnabled`; a missing or non-string credential disables search. -/
def searchEnabledAt (v : JSValue) : Bool :=
  match getPath v ["algolia", "apiKey"], getPath v ["algolia", "appId"],
      getPath v ["algolia", "indexName"] with
  | some (.str a), some (.str b), some (.str c) => searchEnabled a b c
  | _, _, _ => false

/-- Modelled from the spec: the spec constrains `github` and `discord`
to be "non-empty, well-formed URL" strings but the repository contains
no URL validation code (the spec notes the fields are stored
verbatim), so well-formedness is modelled as an `http://` or
`https://` scheme followed by a non-empty remainder. -/
def isWellFormedURL (s : String) : Bool :=
  (s.data.take 8 == "https://".data && decide (8 < s.data.length)) ||
  (s.data.take 7 == "http://".data && decide (7 < s.data.length))

/-- The frozen flag of the object at path `p`, when there is one. -/
def frozenAt (v : JSValue) (p : List String) : Option Bool :=
  match getPath v p with
  | some (.obj b _) => some b
  | _ => none

/-- Read path `q` in the object obtained by writing `w` at path `p` in
`v`; `none` when the write raised or the read misses. -/
def afterWrite (v : JSValue) (p : List String) (w : JSValue)
    (q : List String) : Option JSValue :=
  (writePath v p w).toOption.bind (fun o => getPath o q)

/-- `true` iff `w` is the string literal `s` — the runtime shadow of a
TypeScript literal string type. -/
def isStrLit (w : JSValue) (s : String) : Bool :=
  match w with
  | .str t => t == s
  | _ => false

/-- `true` iff `w` is some string. -/
def isStr (w : JSValue) : Bool :=
  match w with
  | .str _ => true
  | _ => false

/-- The TypeScript static check for an assignment `config.<path> = w`
against the declarations of `config.ts`.  `Object.freeze<Config>`
returns `Readonly<Config>`, so every top-level property is read-only
and no top-level assignment type-checks.  `Readonly` does not reach
nested members, so a nested assignment type-checks when the assigned
value fits the member's declared type: the literal type `''` for
`seo.title` and `seo.description` (only the empty string is
assignable), and `string` for the three algolia credentials.
Assignments to undeclared paths or through string-typed members are
rejected too. -/
def assignTypeChecks : List String → JSValue → Bool
  | [_], _ => false
  | [k₁, k₂], w =>
    if k₁ == "seo" then
      if k₂ == "title" || k₂ == "description" then isStrLit w ""
      else false
    else if k₁ == "algolia" then
      if k₂ == "apiKey" || k₂ == "appId" || k₂ == "indexName" then isStr w
      else false
    else false
  | _, _ => false

/-- Functional evaluation of the source's construction expression
yields exactly the `config` value. -/
lemma eval_configExpr : evalExpr configExpr = .ok config := rfl

/-- Big-step derivation: the construction expression evaluates to
`config`. -/
lemma evalRel_config : EvalRel configExpr config := by
  refine EvalRel.freezeObj (EvalRel.objLit ?_)
  refine EvalFieldsRel.cons (EvalRel.objLit ?_) ?_
  · exact EvalFieldsRel.cons (EvalRel.strLit _)
      (EvalFieldsRel.cons (EvalRel.strLit _) EvalFieldsRel.nil)
  refine EvalFieldsRel.cons (EvalRel.strLit _) ?_
  refine EvalFieldsRel.cons (EvalRel.strLit _) ?_
  refine EvalFieldsRel.cons (EvalRel.objLit ?_) EvalFieldsRel.nil
  exact EvalFieldsRel.cons (EvalRel.strLit _)
    (EvalFieldsRel.cons (EvalRel.strLit _)
      (EvalFieldsRel.cons (EvalRel.strLit _) EvalFieldsRel.nil))

/-- Inversion: a string literal evaluates only to its string. -/
lemma evalRel_strLit_inv {s : String} {v : JSValue}
    (h : EvalRel (.strLit s) v) : v = .str s := by
  cases h; rfl

/-- Inversion: an object literal evaluates only to a non-frozen object
whose fields evaluate the literal's fields. -/
lemma evalRel_objLit_inv {fs : List (String × Expr)} {v : JSValue}
    (h : EvalRel (.objLit fs) v) :
    ∃ ps, EvalFieldsRel fs ps ∧ v = .obj false ps := by
  cases h with
  | objLit hf => exact ⟨_, hf, rfl⟩

/-- Inversion: the empty field list evaluates only to the empty
property list. -/
lemma evalFieldsRel_nil_inv {ps : List (String × JSValue)}
    (h : EvalFieldsRel [] ps) : ps = [] := by
  cases h; rfl

/-- Inversion for a non-empty field list. -/
lemma evalFieldsRel_cons_inv {k : String} {e : Expr}
    {rest : List (String × Expr)} {ps : List (String × JSValue)}
    (h : EvalFieldsRel ((k, e) :: rest) ps) :
    ∃ v ps', EvalRel e v ∧ EvalFieldsRel rest ps' ∧ ps = (k, v) :: ps' := by
  cases h with
  | cons hv hrest => exact ⟨_, _, hv, hrest, rfl⟩

/-- Any big-step result of the construction expression is `config`:
the construction is deterministic and lands on the shipped value. -/
lemma evalRel_configExpr_unique {v : JSValue}
    (h : EvalRel configExpr v) : v = config := by
  cases h with
  | freezeObj hobj =>
    obtain ⟨ps, hf0, hv⟩ := evalRel_objLit_inv hobj
    cases hv
    obtain ⟨v₁, ps₁, hseo, hf1, rfl⟩ := evalFieldsRel_cons_inv hf0
    obtain ⟨ps₂, hs0, rfl⟩ := evalRel_objLit_inv hseo
    obtain ⟨vt, ps₃, ht, hs1, rfl⟩ := evalFieldsRel_cons_inv hs0
    obtain ⟨vd, ps₄, hd, hs2, rfl⟩ := evalFieldsRel_cons_inv hs1
    cases evalFieldsRel_nil_inv hs2
    cases evalRel_strLit_inv ht
    cases evalRel_strLit_inv hd
    obtain ⟨vg, ps₅, hg, hf2, rfl⟩ := evalFieldsRel_cons_inv hf1
    obtain ⟨vdc, ps₆, hdc, hf3, rfl⟩ := evalFieldsRel_cons_inv hf2
    obtain ⟨va, ps₇, halg, hf4, rfl⟩ := evalFieldsRel_cons_inv hf3
    cases evalFieldsRel_nil_inv hf4
    cases evalRel_strLit_inv hg
    cases evalRel_strLit_inv hdc
    obtain ⟨ps₈, ha0, rfl⟩ := evalRel_objLit_inv halg
    obtain ⟨v₂, ps₉, hk, ha1, rfl⟩ := evalFieldsRel_cons_inv ha0
    obtain ⟨v₃, ps₁₀, ha, ha2, rfl⟩ := evalFieldsRel_cons_inv ha1
    obtain ⟨v₄, ps₁₁, hi, ha3, rfl⟩ := evalFieldsRel_cons_inv ha2
    cases evalFieldsRel_nil_inv ha3
    cases evalRel_strLit_inv hk
    cases evalRel_strLit_inv ha
    cases evalRel_strLit_inv hi
    rfl
  | freezePrim hobj hne =>
    obtain ⟨ps, _, hv⟩ := evalRel_objLit_inv hobj
    exact absurd hv (hne false ps)

/-- Unfold `hasLitAt v p s = true` into the read it performs. -/
lemma hasLitAt_eq {v : JSValue} {p : List String} {s : String}
    (h : hasLitAt v p s = true) : getPath v p = some (.str s) := by
  unfold hasLitAt at h
  split at h
  next t heq => rw [heq, eq_of_beq h]
  next => exact absurd h (by simp)

/-- C1: the claim says every field of the constructed config,
including the nested `seo.*` and `algolia.*` fields, resists writes.
It is false: `config.algolia.apiKey = "x"` passes the type checker
(the member has type `string` and `Readonly` does not reach nested
members), and at runtime `Object.freeze` is shallow, so the
strict-mode write succeeds and changes the stored value from `""` to
`"x"`. -/
theorem config_nested_write_succeeds :
    assignTypeChecks ["algolia", "apiKey"] (.str "x") = true ∧
    (writePath config ["algolia", "apiKey"] (.str "x")).isOk = true ∧
    afterWrite config ["algolia", "apiKey"] (.str "x")
      ["algolia", "apiKey"] = some (.str "x") ∧
    getPath config ["algolia", "apiKey"] = some (.str "") ∧
    ("x" : String) ≠ "" :=
  ⟨rfl, rfl, rfl, rfl, by decide⟩

/-- C1 (amended): every field except the three algolia credentials
resists writes as the claim states.  A write to a top-level field
never type-checks (all top-level properties of the frozen config are
read-only) and raises a `TypeError` at runtime, so every field keeps
its value; a value-changing write to `seo.title` or `seo.description`
fails to type-check against the literal type `''`, and the one
type-correct write `''` leaves the value unchanged.  A write to
`algolia.apiKey`, `algolia.appId` or `algolia.indexName`, however,
type-checks and succeeds, changing that field's value from `""`. -/
theorem config_writes_rejected_except_algolia :
    (∀ (k : String) (v : JSValue),
      assignTypeChecks [k] v = false ∧
      writePath config [k] v = .error frozenWriteError) ∧
    (∀ w : JSValue, w ≠ .str "" →
      assignTypeChecks ["seo", "title"] w = false ∧
      assignTypeChecks ["seo", "description"] w = false) ∧
    afterWrite config ["seo", "title"] (.str "") ["seo", "title"] =
      getPath config ["seo", "title"] ∧
    afterWrite config ["seo", "description"] (.str "")
      ["seo", "description"] = getPath config ["seo", "description"] ∧
    assignTypeChecks ["algolia", "apiKey"] (.str "a1") = true ∧
    afterWrite config ["algolia", "apiKey"] (.str "a1")
      ["algolia", "apiKey"] = some (.str "a1") ∧
    assignTypeChecks ["algolia", "appId"] (.str "a2") = true ∧
    afterWrite config ["algolia", "appId"] (.str "a2")
      ["algolia", "appId"] = some (.str "a2") ∧
    assignTypeChecks ["algolia", "indexName"] (.str "a3") = true ∧
    afterWrite config ["algolia", "indexName"] (.str "a3")
      ["algolia", "indexName"] = some (.str "a3") ∧
    getPath config ["algolia", "apiKey"] = some (.str "") ∧
    getPath config ["algolia", "appId"] = some (.str "") ∧
    getPath config ["algolia", "indexName"] = some (.str "") := by
  refine ⟨fun k v => ⟨rfl, rfl⟩, fun w hw => ?_, rfl, rfl, rfl, rfl, rfl,
    rfl, rfl, rfl, rfl, rfl, rfl⟩
  cases w with
  | str t =>
    have ht : t ≠ "" := fun h => hw (by rw [h])
    constructor <;> simp [assignTypeChecks, isStrLit, ht]
  | undef => exact ⟨rfl, rfl⟩
  | nil => exact ⟨rfl, rfl⟩
  | obj b ps => exact ⟨rfl, rfl⟩

/-- C1 witness: a concrete value-changing write to `seo.title` fails
to type-check, by the theorem applied at the string `"T"`. -/
theorem config_writes_rejected_except_algolia_witness :
    assignTypeChecks ["seo", "title"] (.str "T") = false ∧
    assignTypeChecks ["seo", "description"] (.str "T") = false :=
  config_writes_rejected_except_algolia.2.1 (.str "T")
    (by intro h; injection h with h'; exact absurd h' (by decide))

/-- C2: the claim says no mutation attempt on any field silently
succeeds.  It is false: the write `config.algolia.appId = "y"` passes
the TypeScript checker (the member has type `string`), passes the
runtime (the nested `algolia` object is not frozen), and silently
changes the stored value from `""` to `"y"`. -/
theorem config_algolia_write_not_rejected :
    assignTypeChecks ["algolia", "appId"] (.str "y") = true ∧
    (writePath config ["algolia", "appId"] (.str "y")).isOk = true ∧
    afterWrite config ["algolia", "appId"] (.str "y")
      ["algolia", "appId"] = some (.str "y") ∧
    getPath config ["algolia", "appId"] = some (.str "") :=
  ⟨rfl, rfl, rfl, rfl⟩

/-- C2 (amended): a mutation attempt on a top-level field is rejected
both statically (no top-level assignment type-checks against the
frozen config) and at runtime (a `TypeError`, never a silent no-op);
a value-changing write to `seo.title` or `seo.description` is
rejected statically, since only `''` is assignable to its literal
type; but a write to an algolia credential passes both the type
checker and the runtime silently, so mutation attempts on those
fields are not rejected. -/
theorem config_mutation_rejection_boundary :
    (∀ (k : String) (v : JSValue),
      assignTypeChecks [k] v = false ∧
      (writePath config [k] v).isOk = false ∧
      ∃ e, writePath config [k] v = .error e) ∧
    (∀ w : JSValue, assignTypeChecks ["seo", "title"] w = true →
      w = .str "") ∧
    (∀ w : JSValue, assignTypeChecks ["seo", "description"] w = true →
      w = .str "") ∧
    (writePath config ["algolia", "indexName"] (.str "idx")).isOk = true ∧
    afterWrite config ["algolia", "indexName"] (.str "idx")
      ["algolia", "indexName"] = some (.str "idx") := by
  refine ⟨fun k v => ⟨rfl, rfl, frozenWriteError, rfl⟩, ?_, ?_, rfl, rfl⟩ <;>
  · intro w h
    cases w with
    | str t =>
      have h' : (t == "") = true := h
      rw [eq_of_beq h']
    | undef => exact Bool.noConfusion h
    | nil => exact Bool.noConfusion h
    | obj b ps => exact Bool.noConfusion h

/-- C2 witness: the theorem applied at the `github` field with a
concrete value, and the seo constraint instantiated at `''`. -/
theorem config_mutation_rejection_boundary_witness :
    assignTypeChecks ["github"] (.str "u") = false ∧
    (writePath config ["github"] (.str "u")).isOk = false ∧
    JSValue.str "" = JSValue.str "" :=
  ⟨(config_mutation_rejection_boundary.1 "github" (.str "u")).1,
   (config_mutation_rejection_boundary.1 "github" (.str "u")).2.1,
   config_mutation_rejection_boundary.2.1 (.str "") rfl⟩

/-- C3: the consumer's "is search enabled" check is false exactly when
at least one of the three algolia credentials is the empty string, and
the all-empty state is a legal value of the `Config` type (the shipped
`config` itself witnesses it). -/
theorem searchEnabled_false_iff :
    (∀ a b c : String,
      searchEnabled a b c = false ↔ (a = "" ∨ b = "" ∨ c = "")) ∧
    isConfigType config = true := by
  refine ⟨fun a b c => ?_, rfl⟩
  by_cases ha : a = "" <;> by_cases hb : b = "" <;> by_cases hc : c = "" <;>
    simp [searchEnabled, ha, hb, hc]

/-- C3 witness: with all three credentials empty the check is
disabled. -/
theorem searchEnabled_false_iff_witness :
    searchEnabled "" "" "" = false :=
  (searchEnabled_false_iff.1 "" "" "").mpr (Or.inl rfl)

/-- C4: every field path declared by the `Config` type is present in
the constructed config with a string value — in particular no declared
field is `undefined` or `null`. -/
theorem config_all_fields_present :
    ∀ p ∈ declaredPaths,
      (∃ s : String, getPath config p = some (.str s)) ∧
      getPath config p ≠ some .undef ∧ getPath config p ≠ some .nil := by
  intro p hp
  fin_cases hp <;>
    exact ⟨⟨_, rfl⟩, fun h => JSValue.noConfusion (Option.some.inj h),
      fun h => JSValue.noConfusion (Option.some.inj h)⟩

/-- C4 witness: the `github` field is present as a string and is
neither `undefined` nor `null`. -/
theorem config_all_fields_present_witness :
    (∃ s : String, getPath config ["github"] = some (.str s)) ∧
    getPath config ["github"] ≠ some .undef ∧
    getPath config ["github"] ≠ some .nil :=
  config_all_fields_present ["github"] (by simp [declaredPaths])

/-- C5: the `github` and `discord` fields of the constructed config
are non-empty, well-formed URL strings. -/
theorem config_urls_well_formed :
    getPath config ["github"] =
      some (.str "https://github.com/dj-nitehawk/FastEndpoints") ∧
    getPath config ["discord"] =
      some (.str "https://discord.com/invite/yQZ4uvfF2E") ∧
    isWellFormedURL "https://github.com/dj-nitehawk/FastEndpoints" = true ∧
    isWellFormedURL "https://discord.com/invite/yQZ4uvfF2E" = true ∧
    "https://github.com/dj-nitehawk/FastEndpoints" ≠ "" ∧
    "https://discord.com/invite/yQZ4uvfF2E" ≠ "" :=
  ⟨rfl, rfl, by decide, by decide, by decide, by decide⟩

/-- C6: construction is deterministic: any two big-step runs of the
construction expression produce equal — in particular field-wise
equal — objects.  (Purity holds by the shape of the semantics: the
evaluation relation carries no state besides the expression and the
resulting value.) -/
theorem construct_deterministic :
    ∀ v₁ v₂ : JSValue, EvalRel configExpr v₁ → EvalRel configExpr v₂ →
      v₁ = v₂ ∧ ∀ p, getPath v₁ p = getPath v₂ p := by
  intro v₁ v₂ h₁ h₂
  rw [evalRel_configExpr_unique h₁, evalRel_configExpr_unique h₂]
  exact ⟨rfl, fun p => rfl⟩

/-- C6 witness: the theorem applied to two explicit runs of the
construction. -/
theorem construct_deterministic_witness : config = config :=
  (construct_deterministic config config evalRel_config evalRel_config).1

/-- C7: construction never fails: evaluating the construction
expression of `config.ts` yields `ok` (never an error), the result is
the shipped `config`, it inhabits the `Config` type, and its empty
strings are present values rather than missing ones. -/
theorem construct_never_fails :
    (evalExpr configExpr).isOk = true ∧
    evalExpr configExpr = .ok config ∧
    isConfigType config = true ∧
    getPath config ["seo", "title"] = some (.str "") ∧
    getPath config ["algolia", "apiKey"] = some (.str "") :=
  ⟨rfl, rfl, rfl, rfl, rfl⟩

/-- C8: the freeze is shallow.  The outer object is frozen and each of
its four top-level properties resists reassignment, but the nested
`seo` and `algolia` objects are not frozen: the write
`config.algolia.apiKey = "k"` succeeds and changes that field from
`""` to `"k"`, while the top-level bindings — the other fields' values
and the outer frozen flag — are unchanged. -/
theorem freeze_is_shallow :
    frozenAt config [] = some true ∧
    frozenAt config ["seo"] = some false ∧
    frozenAt config ["algolia"] = some false ∧
    (∀ v : JSValue, (writePath config ["seo"] v).isOk = false) ∧
    (∀ v : JSValue, (writePath config ["github"] v).isOk = false) ∧
    (∀ v : JSValue, (writePath config ["discord"] v).isOk = false) ∧
    (∀ v : JSValue, (writePath config ["algolia"] v).isOk = false) ∧
    (writePath config ["algolia", "apiKey"] (.str "k")).isOk = true ∧
    afterWrite config ["algolia", "apiKey"] (.str "k")
      ["algolia", "apiKey"] = some (.str "k") ∧
    getPath config ["algolia", "apiKey"] = some (.str "") ∧
    afterWrite config ["algolia", "apiKey"] (.str "k") ["github"] =
      getPath config ["github"] ∧
    afterWrite config ["algolia", "apiKey"] (.str "k") ["discord"] =
      getPath config ["discord"] ∧
    afterWrite config ["algolia", "apiKey"] (.str "k") ["seo", "title"] =
      getPath config ["seo", "title"] ∧
    (writePath config ["algolia", "apiKey"] (.str "k")).toOption.bind
      (fun o => frozenAt o []) = some true :=
  ⟨rfl, rfl, rfl, fun _ => rfl, fun _ => rfl, fun _ => rfl, fun _ => rfl,
   rfl, rfl, rfl, rfl, rfl, rfl, rfl⟩

/-- C9: the `Config` type gives `seo.title` and `seo.description` the
literal type `''`, so every value of the type carries the empty string
at both members. -/
theorem configType_forces_empty_seo :
    ∀ v : JSValue, isConfigType v = true →
      getPath v ["seo", "title"] = some (.str "") ∧
      getPath v ["seo", "description"] = some (.str "") := by
  intro v h
  simp only [isConfigType, Bool.and_eq_true] at h
  exact ⟨hasLitAt_eq h.1.1.1.1.1.1, hasLitAt_eq h.1.1.1.1.1.2⟩

/-- C9 witness: the shipped config inhabits the type, so its seo
strings are empty. -/
theorem configType_forces_empty_seo_witness :
    getPath config ["seo", "title"] = some (.str "") ∧
    getPath config ["seo", "description"] = some (.str "") :=
  configType_forces_empty_seo config rfl

/-- C10: in the shipped configuration all three algolia credentials
are the empty string, and the "is search enabled" check over this
concrete config is false. -/
theorem config_search_disabled :
    getPath config ["algolia", "apiKey"] = some (.str "") ∧
    getPath config ["algolia", "appId"] = some (.str "") ∧
    getPath config ["algolia", "indexName"] = some (.str "") ∧
    searchEnabledAt config = false :=
  ⟨rfl, rfl, rfl, rfl⟩

end SiteConfig
